import Mathlib

/-!
Shallow embedding of `src/soulsleek_downloader/app/main.py` (the pipeline
orchestrator of the ha-soulsleek-addon repository) and proofs about it.

External processes (sldl, normalize.sh, beets) are opaque: the embedding
takes their observable behaviour (output lines, exit code, or a raised
exception) as environment parameters and models exactly what the Python
code does with that behaviour.  Filesystem effects are likewise modelled
by environment parameters (directory listings, write success).
-/

/-! ## Python string primitives used by the code -/

/-- Python whitespace for `str.rstrip()`. -/
def pyIsSpace (c : Char) : Bool :=
  c = ' ' || c = '\t' || c = '\n' || c = '\x0d' || c = '\x0b' || c = '\x0c'

/-- Python `line.rstrip()`. -/
def pyRstrip (s : String) : String :=
  ⟨(s.data.reverse.dropWhile pyIsSpace).reverse⟩

/-- Python `s.lower()` (ASCII case folding, which is all the code relies on). -/
def pyLower (s : String) : String :=
  ⟨s.data.map Char.toLower⟩

/-- Does list `p` start list `s`? -/
def startsL : List Char → List Char → Bool
  | [], _ => true
  | _ :: _, [] => false
  | a :: p, b :: s => a == b && startsL p s

/-- Does `needle` occur somewhere in `hay`? -/
def containsL (needle : List Char) : List Char → Bool
  | [] => startsL needle []
  | c :: rest => startsL needle (c :: rest) || containsL needle rest

/-- Python `needle in hay` on strings. -/
def pyContains (hay needle : String) : Bool :=
  containsL needle.data hay.data

/-- Python `s.endswith(suffix)`. -/
def pyEndsWith (s suffix : String) : Bool :=
  startsL suffix.data.reverse s.data.reverse

/-! ## Download Stage (`download_music`, main.py lines 11-83) -/

/-- main.py line 50: `"Failed:" in line and "artist:" in line.lower()`. -/
def isTrackFailureLine (line : String) : Bool :=
  pyContains line "Failed:" && pyContains (pyLower line) "artist:"

/-- main.py lines 55-57: keywords of lines surfaced to the console. -/
def progressKeywords : List String :=
  ["Downloading", "tracks:", "Succeeded:", "Failed:", "Completed:"]

/-- main.py lines 55-58: the display filter. -/
def isProgressLine (line : String) : Bool :=
  progressKeywords.any (fun k => pyContains line k)

/-- Environment of one `download_music` call: whether the sldl binary
exists, the lines the child process emits, its exit code, and whether the
k-th transcript write (`f.write` at line 46) succeeds or raises. -/
structure DlEnv where
  sldlExists : Bool
  streamLines : List String
  returncode : Int
  writeOk : Nat → Bool

/-- Result of the line-streaming loop (main.py lines 44-58): either the
loop finished with the accumulated failed-track records, or a transcript
write raised and aborted it with the records collected so far. -/
inductive StreamOut where
  | completed (failedTracks : List String)
  | writeError (failedTracks : List String)
deriving DecidableEq

/-- The loop `for line in process.stdout` (main.py lines 44-58): rstrip the
line, write it to the transcript (a failing write raises out of the loop),
record it when it matches the per-track-failure marker. -/
def streamLoop (writeOk : Nat → Bool) (i : Nat) (acc : List String) :
    List String → StreamOut
  | [] => .completed acc
  | l :: rest =>
    let line := pyRstrip l
    if writeOk i then
      streamLoop writeOk (i + 1)
        (if isTrackFailureLine line then acc ++ [line] else acc) rest
    else .writeError acc

/-- What one `download_music` call did.  `result` is `Except` so that a
propagated exception (an `.error`) is distinguishable from the ordinary
`(success, failed_tracks)` return value; the broad `except` at main.py
line 79 converts every exception raised inside the `try` into the
ordinary return `(False, failed_tracks)`. -/
structure DlRun where
  processLaunched : Bool
  result : Except String (Bool × List String)

/-- main.py lines 11-83.  The missing-binary pre-flight check returns
`(False, [])` before any launch; otherwise the process is launched, its
output streamed, and the return value is `(returncode == 0, failed_tracks)`
— also after a transcript-write exception, which the handler at line 79
turns into `(False, failed_tracks)`. -/
def download_music (env : DlEnv) : DlRun :=
  if !env.sldlExists then
    { processLaunched := false, result := .ok (false, []) }
  else
    match streamLoop env.writeOk 0 [] env.streamLines with
    | .completed tracks =>
        { processLaunched := true, result := .ok (env.returncode == 0, tracks) }
    | .writeError tracks =>
        { processLaunched := true, result := .ok (false, tracks) }

/-- The boolean `download_success` that `main` receives (main.py line 272). -/
def dlSucceeded (env : DlEnv) : Bool :=
  match (download_music env).result with
  | .ok (b, _) => b
  | .error _ => false

/-! ## Lemmas about the streaming loop -/

theorem streamLoop_all_ok (writeOk : Nat → Bool) (hw : ∀ i, writeOk i = true) :
    ∀ (lines : List String) (i : Nat) (acc : List String),
      streamLoop writeOk i acc lines =
        .completed (acc ++ (lines.map pyRstrip).filter isTrackFailureLine) := by
  intro lines
  induction lines with
  | nil => intro i acc; simp [streamLoop]
  | cons l rest ih =>
      intro i acc
      simp only [streamLoop, hw i, if_true, List.map_cons, List.filter_cons]
      cases h : isTrackFailureLine (pyRstrip l) with
      | true => simp [ih, h, List.append_assoc]
      | false => simp [ih, h]

theorem streamLoop_write_fails (writeOk : Nat → Bool) :
    ∀ (lines : List String) (i : Nat) (acc : List String),
      (∃ j, j < lines.length ∧ writeOk (i + j) = false) →
      ∃ tracks, streamLoop writeOk i acc lines = .writeError tracks := by
  intro lines
  induction lines with
  | nil => intro i acc ⟨j, hj, _⟩; exact absurd hj (by simp)
  | cons l rest ih =>
      intro i acc ⟨j, hj, hfail⟩
      cases hw : writeOk i with
      | false => exact ⟨acc, by simp [streamLoop, hw]⟩
      | true =>
          cases j with
          | zero => rw [Nat.add_zero] at hfail; exact absurd hw (by simp [hfail])
          | succ j' =>
              have hrec : ∃ k, k < rest.length ∧ writeOk ((i + 1) + k) = false := by
                refine ⟨j', by simpa using Nat.lt_of_succ_lt_succ hj, ?_⟩
                have : (i + 1) + j' = i + (j' + 1) := by omega
                rw [this]; exact hfail
              obtain ⟨tracks, htr⟩ := ih (i + 1)
                (if isTrackFailureLine (pyRstrip l) then acc ++ [pyRstrip l] else acc) hrec
              exact ⟨tracks, by simp only [streamLoop, hw, if_true]; exact htr⟩

/-- `download_music` never propagates an exception to the caller: every
path returns the ordinary `(success, failed_tracks)` pair. -/
theorem download_music_never_errors (env : DlEnv) :
    ∃ p, (download_music env).result = Except.ok p := by
  unfold download_music
  cases env.sldlExists with
  | false => exact ⟨(false, []), rfl⟩
  | true =>
      simp only [Bool.not_true, Bool.false_eq_true, if_false]
      cases h : streamLoop env.writeOk 0 [] env.streamLines with
      | completed tracks => exact ⟨(env.returncode == 0, tracks), by simp [h]⟩
      | writeError tracks => exact ⟨(false, tracks), by simp [h]⟩

/-! ## Per-file normalization (`normalize_single_file`, main.py lines 85-122) -/

/-- Observable behaviour of one opaque external process invocation: it
exited with a code, or launching/driving it raised an exception whose
text is `msg`. -/
inductive ProcOutcome where
  | exited (code : Int)
  | raised (msg : String)
deriving DecidableEq

inductive NormStatus where
  | success
  | failed
deriving DecidableEq

/-- The dict returned by `normalize_single_file`: `status`, `file`, and
(on failure) `error`. -/
structure NormResult where
  status : NormStatus
  file : String
  error : Option String
deriving DecidableEq

/-- main.py lines 85-122: success exactly on exit code 0; a non-zero exit
gives `error = "Exit code: <n>"`; the catch-all handler at line 121 turns
any raised exception into a failure dict carrying the exception text. -/
def normalize_single_file (file_path : String) (proc : ProcOutcome) : NormResult :=
  match proc with
  | .exited code =>
      if code == 0 then
        { status := .success, file := file_path, error := none }
      else
        { status := .failed, file := file_path,
          error := some ("Exit code: " ++ toString code) }
  | .raised msg => { status := .failed, file := file_path, error := some msg }

theorem normalize_single_file_keeps_file (f : String) (p : ProcOutcome) :
    (normalize_single_file f p).file = f := by
  cases p with
  | exited code =>
      by_cases h : code == 0 <;> simp [normalize_single_file, h]
  | raised msg => rfl

/-! ## Enrichment (`update_metadata_with_beets`, main.py lines 124-163) -/

/-- main.py lines 124-163: a zero exit returns True, a non-zero exit is
downgraded to a warning and still returns True (line 159); only a raised
exception returns False. -/
def update_metadata_with_beets (proc : ProcOutcome) : Bool :=
  match proc with
  | .exited _ => true
  | .raised _ => false

/-! ## Normalization Stage (`process_music`, main.py lines 165-237) -/

/-- main.py line 180. -/
def supported_extensions : List String :=
  [".flac", ".mp3", ".ogg", ".wav", ".aiff"]

/-- One `(root, file)` pair yielded by `os.walk` (main.py lines 181-184). -/
structure WalkEntry where
  root : String
  file : String
deriving DecidableEq

/-- main.py line 183: `any(file.lower().endswith(ext) for ext in ...)`. -/
def isAudioName (file : String) : Bool :=
  supported_extensions.any (fun ext => pyEndsWith (pyLower file) ext)

/-- main.py lines 179-184: the discovery loop collects
`os.path.join(root, file)` for every walked file with a supported
extension, in walk order. -/
def discoverAudioFiles (walk : List WalkEntry) : List String :=
  (walk.filter (fun e => isAudioName e.file)).map (fun e => e.root ++ "/" ++ e.file)

/-- Environment of one `process_music` call: whether normalize.sh is
executable, the `os.walk` listing of the input directory, the detected
core count, each file's normalization-process behaviour, the beets
process behaviour, and whether `shutil.rmtree` succeeds. -/
structure PmEnv where
  scriptExecutable : Bool
  walk : List WalkEntry
  cpuCount : Nat
  procFor : String → ProcOutcome
  beetsProc : ProcOutcome
  cleanupOk : Bool

/-- Externally observable actions of `process_music`, in program order:
one `normalizeJob` per submitted file, `enrich` for the beets call,
`cleanup` for the `shutil.rmtree` attempt. -/
inductive Event where
  | normalizeJob (file : String)
  | enrich
  | cleanup
deriving DecidableEq

/-- Which diagnostic path `process_music` took: the missing-script error
return (line 177), or a normal return. -/
inductive PmStatus where
  | scriptError
  | completedRun
deriving DecidableEq

structure PmSummary where
  status : PmStatus
  max_workers : Nat
  successful_conversions : List String
  failed_conversions : List (String × String)
  enrichInvoked : Bool
  beetsReturn : Option Bool
  cleanupAttempted : Bool
  cleanupSucceeded : Bool
deriving DecidableEq

/-- The futures' results, one per discovered file in submission order
(main.py lines 203-211: each future is collected with `future.result()`
in the order the files were submitted). -/
def pmResults (env : PmEnv) : List NormResult :=
  (discoverAudioFiles env.walk).map (fun f => normalize_single_file f (env.procFor f))

/-- main.py lines 210-215: the `successful_conversions` list (files of
the results whose status is "success"). -/
def pmSuccessList (env : PmEnv) : List String :=
  (((pmResults env).partition (fun r => r.status == NormStatus.success)).1).map
    (fun r => r.file)

/-- main.py lines 210-215: the `failed_conversions` list (file/error
pairs of the results whose status is not "success"). -/
def pmFailedList (env : PmEnv) : List (String × String) :=
  (((pmResults env).partition (fun r => r.status == NormStatus.success)).2).map
    (fun r => (r.file, r.error.getD ""))

/-- main.py lines 165-237.  Early returns: missing script (line 177), no
audio files (line 188).  Otherwise every discovered file is submitted to
the pool, every future's result is collected into exactly one of the two
lists (lines 210-215), beets runs once iff at least one success (lines
226-228), and the rmtree attempt follows unconditionally (lines 231-235,
its own exception caught as a warning). -/
def process_music (env : PmEnv) : List Event × PmSummary :=
  if !env.scriptExecutable then
    ([], { status := .scriptError, max_workers := 0,
           successful_conversions := [], failed_conversions := [],
           enrichInvoked := false, beetsReturn := none,
           cleanupAttempted := false, cleanupSucceeded := false })
  else
    if discoverAudioFiles env.walk = [] then
      ([], { status := .completedRun, max_workers := 0,
             successful_conversions := [], failed_conversions := [],
             enrichInvoked := false, beetsReturn := none,
             cleanupAttempted := false, cleanupSucceeded := false })
    else
      ((discoverAudioFiles env.walk).map Event.normalizeJob
         ++ (if pmSuccessList env ≠ [] then [Event.enrich] else [])
         ++ [Event.cleanup],
       { status := .completedRun, max_workers := max 1 (env.cpuCount / 2),
         successful_conversions := pmSuccessList env,
         failed_conversions := pmFailedList env,
         enrichInvoked := if pmSuccessList env ≠ [] then true else false,
         beetsReturn := if pmSuccessList env ≠ [] then
             some (update_metadata_with_beets env.beetsProc)
           else none,
         cleanupAttempted := true, cleanupSucceeded := env.cleanupOk })

/-! ## Orchestrator (`main`, main.py lines 240-287) -/

/-- Parsed argparse namespace; `none` is an absent flag.  `password`
embeds the `pass` destination. -/
structure Args where
  playlist_url : Option String
  output_dir : Option String
  user : Option String
  password : Option String
  pref_format : Option String
  process_dir : Option String

/-- Python truthiness of an optional string argument (absent and empty
are both falsy). -/
def truthy (o : Option String) : Bool :=
  match o with
  | none => false
  | some s => !s.isEmpty

/-- Environment of one `main` invocation: the download environment, the
listing `os.listdir(download_dir)` observed after the download returns
(main.py line 281), and the `process_music` environment. -/
structure MainEnv where
  dl : DlEnv
  downloadDirListing : List String
  pm : PmEnv

/-- Observable outcome of one `main` invocation.  `exitCode` is the
process exit status: 2 for `parser.error`, 1 for an uncaught exception,
0 when `main` returns normally. -/
structure MainRun where
  exitCode : Nat
  dlInvoked : Bool
  dlProcessLaunched : Bool
  download_success : Bool
  failed_tracks : List String
  pmInvoked : Bool
  events : List Event
  summary : Option PmSummary

/-- The `parser.error` outcome: argparse prints usage and exits with
status 2 before any stage runs. -/
def usageError : MainRun :=
  { exitCode := 2, dlInvoked := false, dlProcessLaunched := false,
    download_success := false, failed_tracks := [], pmInvoked := false,
    events := [], summary := none }

/-- main.py lines 240-287.  `--process-dir` excludes the download flags
(line 258 checks playlist/user/pass/pref-format, not output-dir);
acquisition mode requires all four companions (line 264); afterwards
`process_music` runs iff the download succeeded or the download
directory is non-empty (line 281); `main` itself never inspects stage
outcomes for its exit status and falls through to line 287.  (Named
`main_run` because Lean reserves the name `main` for executables.) -/
def main_run (args : Args) (env : MainEnv) : MainRun :=
  if truthy args.process_dir then
    if truthy args.playlist_url || truthy args.user || truthy args.password
        || truthy args.pref_format then
      usageError
    else
      let run := process_music env.pm
      { exitCode := 0, dlInvoked := false, dlProcessLaunched := false,
        download_success := false, failed_tracks := [], pmInvoked := true,
        events := run.1, summary := some run.2 }
  else if truthy args.playlist_url then
    if !(truthy args.output_dir && truthy args.user && truthy args.password
        && truthy args.pref_format) then
      usageError
    else
      let dl := download_music env.dl
      match dl.result with
      | .error _ =>
          { exitCode := 1, dlInvoked := true,
            dlProcessLaunched := dl.processLaunched, download_success := false,
            failed_tracks := [], pmInvoked := false, events := [], summary := none }
      | .ok (download_success, failed_tracks) =>
          if download_success = true ∨ env.downloadDirListing ≠ [] then
            let run := process_music env.pm
            { exitCode := 0, dlInvoked := true,
              dlProcessLaunched := dl.processLaunched,
              download_success := download_success,
              failed_tracks := failed_tracks, pmInvoked := true,
              events := run.1, summary := some run.2 }
          else
            { exitCode := 0, dlInvoked := true,
              dlProcessLaunched := dl.processLaunched,
              download_success := download_success,
              failed_tracks := failed_tracks, pmInvoked := false,
              events := [], summary := none }
  else usageError

/-- Argument combinations that pass `main`'s validation (reach a stage
rather than `parser.error`). -/
def argsValid (args : Args) : Bool :=
  (truthy args.process_dir
    && !(truthy args.playlist_url || truthy args.user || truthy args.password
         || truthy args.pref_format))
  || (!truthy args.process_dir && truthy args.playlist_url
      && truthy args.output_dir && truthy args.user && truthy args.password
      && truthy args.pref_format)

/-! ## Helper lemmas -/

theorem length_filter_split {α : Type} (p : α → Bool) (l : List α) :
    (l.filter p).length + (l.filter (not ∘ p)).length = l.length := by
  induction l with
  | nil => rfl
  | cons a t ih =>
      cases h : p a <;> simp [List.filter_cons, h, Function.comp] <;> omega

/-- No `normalizeJob` event occurs in the list. -/
def jobFree : List Event → Bool
  | [] => true
  | Event.normalizeJob _ :: _ => false
  | _ :: t => jobFree t

/-- Every `enrich` event in the list happens after every `normalizeJob`
event (no normalization job follows an enrichment). -/
def jobsPrecedeEnrich : List Event → Bool
  | [] => true
  | Event.enrich :: t => jobFree t && jobsPrecedeEnrich t
  | _ :: t => jobsPrecedeEnrich t

theorem enrich_not_mem_jobs (files : List String) :
    Event.enrich ∉ files.map Event.normalizeJob := by
  simp [List.mem_map]

theorem cleanup_not_mem_jobs (files : List String) :
    Event.cleanup ∉ files.map Event.normalizeJob := by
  simp [List.mem_map]

theorem jobsPrecedeEnrich_append_jobs (files : List String) (rest : List Event) :
    jobsPrecedeEnrich (files.map Event.normalizeJob ++ rest) = jobsPrecedeEnrich rest := by
  induction files with
  | nil => rfl
  | cons f t ih => simpa [jobsPrecedeEnrich] using ih

/-! ## Claim C4 -/

/-- C4: for every download output stream, the Download Stage returns one
TrackFailure record per line matching the per-track-failure marker
(`"Failed:" in line and "artist:" in line.lower()`), exactly the ordered
sublist of matching (rstripped) lines, so in particular exactly N records
for N matching lines; and this list accompanies the outcome both when the
exit code is zero (success = true) and when it is non-zero. -/
theorem C4_track_failure_records (env : DlEnv) (hs : env.sldlExists = true)
    (hw : ∀ i, env.writeOk i = true) :
    ∃ tracks : List String,
      (download_music env).result = Except.ok (env.returncode == 0, tracks) ∧
      tracks = (env.streamLines.map pyRstrip).filter isTrackFailureLine ∧
      tracks.length = (env.streamLines.map pyRstrip).countP isTrackFailureLine := by
  refine ⟨(env.streamLines.map pyRstrip).filter isTrackFailureLine, ?_, rfl, ?_⟩
  · simp [download_music, hs, streamLoop_all_ok env.writeOk hw env.streamLines 0 []]
  · exact (List.countP_eq_length_filter _ _).symm

/-- A concrete download environment: three stream lines, one of which
matches the per-track-failure marker, and a non-zero exit code. -/
def dlEnvC4 : DlEnv :=
  { sldlExists := true,
    streamLines := ["Searching for tracks", "Failed: Some Song [artist: A]  ",
                    "Completed: 9 of 10"],
    returncode := 1,
    writeOk := fun _ => true }

theorem C4_track_failure_records_witness :
    ∃ tracks : List String,
      (download_music dlEnvC4).result = Except.ok (dlEnvC4.returncode == 0, tracks) ∧
      tracks = (dlEnvC4.streamLines.map pyRstrip).filter isTrackFailureLine ∧
      tracks.length = (dlEnvC4.streamLines.map pyRstrip).countP isTrackFailureLine :=
  C4_track_failure_records dlEnvC4 rfl (fun _ => rfl)

/-! ## Claim C9 -/

/-- A concrete download environment whose first transcript write raises. -/
def dlEnvC9 : DlEnv :=
  { sldlExists := true,
    streamLines := ["Failed: Some Song [artist: A]"],
    returncode := 0,
    writeOk := fun _ => false }

/-- C9 counterexample: a transcript write fails during the run, yet
`download_music` returns the ordinary stage result `(False, [])` via the
catch-all handler at main.py line 79 — an `Except.ok`, not the
distinguished `Except.error` the claim requires. -/
theorem C9_counterexample :
    dlEnvC9.writeOk 0 = false ∧ dlEnvC9.streamLines.length = 1 ∧
    (download_music dlEnvC9).result = Except.ok (false, []) :=
  ⟨rfl, rfl, rfl⟩

/-- C9 amended: a transcript-write failure does abort the streaming loop,
but the broad `except` in `download_music` catches it and converts it
into the ordinary Failed stage result (success = false with the records
collected so far); it is not propagated to the caller as a distinguished
error. -/
theorem C9_write_failure_swallowed (env : DlEnv) (hs : env.sldlExists = true)
    (hfail : ∃ j, j < env.streamLines.length ∧ env.writeOk j = false) :
    ∃ tracks : List String,
      (download_music env).result = Except.ok (false, tracks) := by
  obtain ⟨tracks, htr⟩ :=
    streamLoop_write_fails env.writeOk env.streamLines 0 [] (by simpa using hfail)
  exact ⟨tracks, by simp [download_music, hs, htr]⟩

theorem C9_write_failure_swallowed_witness :
    ∃ tracks : List String,
      (download_music dlEnvC9).result = Except.ok (false, tracks) :=
  C9_write_failure_swallowed dlEnvC9 rfl ⟨0, by decide, rfl⟩

/-! ## The main path of `process_music` -/

theorem process_music_main_path (env : PmEnv) (hs : env.scriptExecutable = true)
    (hne : discoverAudioFiles env.walk ≠ []) :
    process_music env =
      ((discoverAudioFiles env.walk).map Event.normalizeJob
         ++ (if pmSuccessList env ≠ [] then [Event.enrich] else [])
         ++ [Event.cleanup],
       { status := .completedRun, max_workers := max 1 (env.cpuCount / 2),
         successful_conversions := pmSuccessList env,
         failed_conversions := pmFailedList env,
         enrichInvoked := if pmSuccessList env ≠ [] then true else false,
         beetsReturn := if pmSuccessList env ≠ [] then
             some (update_metadata_with_beets env.beetsProc)
           else none,
         cleanupAttempted := true, cleanupSucceeded := env.cleanupOk }) := by
  simp [process_music, hs, hne]

/-! ## Claim C3 -/

/-- C3: for every discovered file set and every detected core count (and
hence every worker-pool size `max 1 (cpuCount / 2)`), the number of
collected per-file results — successes plus failures — equals the number
of discovered audio files: the fan-in drops no file and counts no file
twice. -/
theorem C3_results_cover_all_files (env : PmEnv) (hs : env.scriptExecutable = true) :
    (process_music env).2.successful_conversions.length
      + (process_music env).2.failed_conversions.length
      = (discoverAudioFiles env.walk).length := by
  by_cases hne : discoverAudioFiles env.walk = []
  · simp [process_music, hs, hne]
  · rw [process_music_main_path env hs hne]
    show (pmSuccessList env).length + (pmFailedList env).length = _
    simp only [pmSuccessList, pmFailedList, List.partition_eq_filter_filter,
      List.length_map]
    rw [length_filter_split]
    simp [pmResults]

/-- A directory holding three audio files (two succeed, one fails with
exit code 1) and one non-audio file, the spec's own scenario. -/
def pmEnvMixed : PmEnv :=
  { scriptExecutable := true,
    walk := [⟨"/downloads", "a.flac"⟩, ⟨"/downloads", "b.MP3"⟩,
             ⟨"/downloads", "c.ogg"⟩, ⟨"/downloads", "cover.jpg"⟩],
    cpuCount := 8,
    procFor := fun f => if f = "/downloads/c.ogg" then ProcOutcome.exited 1
      else ProcOutcome.exited 0,
    beetsProc := ProcOutcome.exited 0,
    cleanupOk := true }

theorem C3_results_cover_all_files_witness :
    (process_music pmEnvMixed).2.successful_conversions.length
      + (process_music pmEnvMixed).2.failed_conversions.length
      = (discoverAudioFiles pmEnvMixed.walk).length :=
  C3_results_cover_all_files pmEnvMixed rfl

/-! ## Claim C5 -/

/-- C5: a per-file outcome is Success exactly when the normalization
process exited 0; a non-zero exit yields a Failure whose reason is the
exit code, a raised exception yields a Failure whose reason is the
exception text; and no single file's failure aborts the others — every
discovered file still lands in exactly one of the two collected lists,
whatever the other files' processes did. -/
theorem C5_per_file_outcome (env : PmEnv) (f : String) (p : ProcOutcome)
    (hs : env.scriptExecutable = true) :
    ((normalize_single_file f p).status = NormStatus.success ↔ p = ProcOutcome.exited 0) ∧
    (∀ c : Int, c ≠ 0 → (normalize_single_file f (ProcOutcome.exited c)).error
        = some ("Exit code: " ++ toString c)) ∧
    (∀ m : String, (normalize_single_file f (ProcOutcome.raised m)).error = some m) ∧
    (∀ g, g ∈ discoverAudioFiles env.walk →
       g ∈ (process_music env).2.successful_conversions ∨
       ∃ err, (g, err) ∈ (process_music env).2.failed_conversions) := by
  refine ⟨?_, ?_, ?_, ?_⟩
  · cases p with
    | exited c =>
        by_cases h : c = 0
        · subst h; simp [normalize_single_file]
        · simp [normalize_single_file, h]
    | raised m => simp [normalize_single_file]
  · intro c hc; simp [normalize_single_file, hc]
  · intro m; rfl
  · intro g hg
    have hne : discoverAudioFiles env.walk ≠ [] := by
      intro h; rw [h] at hg; exact absurd hg (List.not_mem_nil g)
    rw [process_music_main_path env hs hne]
    have hr : normalize_single_file g (env.procFor g) ∈ pmResults env :=
      List.mem_map.mpr ⟨g, hg, rfl⟩
    cases hst : ((normalize_single_file g (env.procFor g)).status == NormStatus.success) with
    | true =>
        left
        refine List.mem_map.mpr ⟨normalize_single_file g (env.procFor g), ?_, ?_⟩
        · rw [List.partition_eq_filter_filter]
          exact List.mem_filter.mpr ⟨hr, hst⟩
        · exact normalize_single_file_keeps_file g (env.procFor g)
    | false =>
        right
        refine ⟨(normalize_single_file g (env.procFor g)).error.getD "", ?_⟩
        refine List.mem_map.mpr ⟨normalize_single_file g (env.procFor g), ?_, ?_⟩
        · rw [List.partition_eq_filter_filter]
          exact List.mem_filter.mpr ⟨hr, by simp [Function.comp, hst]⟩
        · rw [normalize_single_file_keeps_file]

theorem C5_per_file_outcome_witness :
    ((normalize_single_file "/downloads/a.flac" (ProcOutcome.exited 0)).status
        = NormStatus.success ↔ ProcOutcome.exited 0 = ProcOutcome.exited 0) ∧
    (normalize_single_file "/downloads/a.flac" (ProcOutcome.exited 1)).error
        = some ("Exit code: " ++ toString (1 : Int)) ∧
    (normalize_single_file "/downloads/a.flac" (ProcOutcome.raised "boom")).error
        = some "boom" ∧
    ("/downloads/a.flac" ∈ (process_music pmEnvMixed).2.successful_conversions ∨
      ∃ err, ("/downloads/a.flac", err) ∈ (process_music pmEnvMixed).2.failed_conversions) :=
  have h := C5_per_file_outcome pmEnvMixed "/downloads/a.flac" (ProcOutcome.exited 0) rfl
  ⟨h.1, h.2.1 1 (by decide), h.2.2.1 "boom", h.2.2.2 "/downloads/a.flac" (by decide)⟩

/-! ## Claim C6 -/

/-- C6: in every `process_music` run, the enrichment call appears at most
once in the event trace, it appears only when at least one file's
normalization succeeded, and every submitted normalization job precedes
it in the trace (the fan-in barrier at main.py lines 210-211 completes
before line 228 runs beets). -/
theorem C6_enrich_once_after_all_jobs (env : PmEnv) :
    (process_music env).1.count Event.enrich ≤ 1 ∧
    (Event.enrich ∈ (process_music env).1 →
       (process_music env).2.successful_conversions ≠ []) ∧
    jobsPrecedeEnrich (process_music env).1 = true := by
  by_cases hs : env.scriptExecutable = true
  · by_cases hne : discoverAudioFiles env.walk = []
    · refine ⟨?_, ?_, ?_⟩ <;> simp [process_music, hs, hne, jobsPrecedeEnrich]
    · rw [process_music_main_path env hs hne]
      refine ⟨?_, ?_, ?_⟩
      · rw [List.append_assoc, List.count_append,
          List.count_eq_zero.mpr (enrich_not_mem_jobs _)]
        by_cases hP : pmSuccessList env ≠ []
        · rw [if_pos hP]; decide
        · rw [if_neg hP]; decide
      · intro hmem
        by_cases hP : pmSuccessList env ≠ []
        · exact hP
        · exfalso
          rw [List.append_assoc] at hmem
          rcases List.mem_append.mp hmem with h | h
          · exact enrich_not_mem_jobs _ h
          · rw [if_neg hP] at h
            simp at h
      · rw [List.append_assoc, jobsPrecedeEnrich_append_jobs]
        by_cases hP : pmSuccessList env ≠ []
        · rw [if_pos hP]; decide
        · rw [if_neg hP]; decide
  · have hs' : env.scriptExecutable = false := by
      cases h : env.scriptExecutable
      · rfl
      · exact absurd h hs
    refine ⟨?_, ?_, ?_⟩ <;> simp [process_music, hs', jobsPrecedeEnrich]

theorem C6_enrich_once_after_all_jobs_witness :
    (process_music pmEnvMixed).1.count Event.enrich ≤ 1 ∧
    (process_music pmEnvMixed).2.successful_conversions ≠ [] ∧
    jobsPrecedeEnrich (process_music pmEnvMixed).1 = true :=
  have h := C6_enrich_once_after_all_jobs pmEnvMixed
  ⟨h.1, h.2.1 (by decide), h.2.2⟩

/-! ## Claim C7 -/

/-- C7: when discovery finds zero matching audio files, `process_music`
returns through the normal (non-error) path with zero successes and zero
failures, and the enrichment call never happens in that run. -/
theorem C7_zero_files_succeeds_without_enrichment (env : PmEnv)
    (hs : env.scriptExecutable = true)
    (hz : discoverAudioFiles env.walk = []) :
    (process_music env).2.status = PmStatus.completedRun ∧
    (process_music env).2.successful_conversions = [] ∧
    (process_music env).2.failed_conversions = [] ∧
    (process_music env).2.enrichInvoked = false ∧
    Event.enrich ∉ (process_music env).1 := by
  simp [process_music, hs, hz]

/-- A directory whose only file is not an audio file. -/
def pmEnvNoAudio : PmEnv :=
  { scriptExecutable := true,
    walk := [⟨"/downloads", "cover.jpg"⟩],
    cpuCount := 4,
    procFor := fun _ => ProcOutcome.exited 0,
    beetsProc := ProcOutcome.exited 0,
    cleanupOk := true }

theorem C7_zero_files_succeeds_without_enrichment_witness :
    (process_music pmEnvNoAudio).2.status = PmStatus.completedRun ∧
    (process_music pmEnvNoAudio).2.successful_conversions = [] ∧
    (process_music pmEnvNoAudio).2.failed_conversions = [] ∧
    (process_music pmEnvNoAudio).2.enrichInvoked = false ∧
    Event.enrich ∉ (process_music pmEnvNoAudio).1 :=
  C7_zero_files_succeeds_without_enrichment pmEnvNoAudio rfl (by decide)

/-! ## Concrete invocations -/

/-- A valid acquisition-mode argument set. -/
def argsAcq : Args :=
  { playlist_url := some "https://open.spotify.com/playlist/abc",
    output_dir := some "/music", user := some "alice",
    password := some "hunter2", pref_format := some "mp3",
    process_dir := none }

/-- An invalid combination: `--process-dir` together with `--user`. -/
def argsBad : Args :=
  { playlist_url := none, output_dir := none, user := some "alice",
    password := none, pref_format := none, process_dir := some "/music/d" }

/-- Acquisition run whose download fails (exit code 1, no output) and
leaves the download directory empty. -/
def envDlFailedEmpty : MainEnv :=
  { dl := { sldlExists := true, streamLines := [], returncode := 1,
            writeOk := fun _ => true },
    downloadDirListing := [],
    pm := pmEnvMixed }

/-- Acquisition run whose download fails but leaves partial output in
the download directory. -/
def envDlFailedNonEmpty : MainEnv :=
  { dl := { sldlExists := true, streamLines := [], returncode := 1,
            writeOk := fun _ => true },
    downloadDirListing := ["a.flac"],
    pm := pmEnvMixed }

/-- Acquisition run with the sldl binary absent and the download
directory empty. -/
def envNoSldl : MainEnv :=
  { dl := { sldlExists := false, streamLines := [], returncode := 0,
            writeOk := fun _ => true },
    downloadDirListing := [],
    pm := pmEnvMixed }

/-! ## Claim C1 -/

/-- C1 counterexample: an acquisition-mode invocation whose download
fails with an empty download directory never reaches `process_music`, so
the cleanup step executes zero times — not exactly once as the claim
requires for every invocation. -/
theorem C1_counterexample :
    (main_run argsAcq envDlFailedEmpty).events.count Event.cleanup ≠ 1 := by
  decide

/-- Cleanup happens exactly once on the main path of `process_music`. -/
theorem cleanup_count_one (env : PmEnv) (hs : env.scriptExecutable = true)
    (hne : discoverAudioFiles env.walk ≠ []) :
    (process_music env).1.count Event.cleanup = 1 := by
  rw [process_music_main_path env hs hne, List.append_assoc, List.count_append,
    List.count_eq_zero.mpr (cleanup_not_mem_jobs _)]
  by_cases hP : pmSuccessList env ≠ []
  · rw [if_pos hP]; decide
  · rw [if_neg hP]; decide

/-- C1 amended: cleanup executes exactly once in every invocation in
which the normalization stage is entered (download succeeded or the
download directory is non-empty) and passes its pre-checks (script
executable, at least one audio file discovered) — regardless of whether
the download, any per-file normalization, or the enrichment failed.
When normalization is skipped or returns early, cleanup does not execute
at all (as the counterexample shows). -/
theorem C1_cleanup_once_when_normalization_runs (args : Args) (env : MainEnv)
    (hpd : truthy args.process_dir = false)
    (hpl : truthy args.playlist_url = true)
    (ho : truthy args.output_dir = true) (hu : truthy args.user = true)
    (hpw : truthy args.password = true) (hpf : truthy args.pref_format = true)
    (henter : dlSucceeded env.dl = true ∨ env.downloadDirListing ≠ [])
    (hs : env.pm.scriptExecutable = true)
    (hne : discoverAudioFiles env.pm.walk ≠ []) :
    (main_run args env).events.count Event.cleanup = 1 := by
  obtain ⟨⟨b, tr⟩, hok⟩ := download_music_never_errors env.dl
  have hb : dlSucceeded env.dl = b := by simp [dlSucceeded, hok]
  rw [hb] at henter
  simp only [main_run, hpd, hpl, ho, hu, hpw, hpf, hok, Bool.false_eq_true, if_false,
    Bool.and_self, Bool.not_true, if_true]
  rw [if_pos henter]
  exact cleanup_count_one env.pm hs hne

theorem C1_cleanup_once_when_normalization_runs_witness :
    (main_run argsAcq envDlFailedNonEmpty).events.count Event.cleanup = 1 :=
  C1_cleanup_once_when_normalization_runs argsAcq envDlFailedNonEmpty rfl rfl rfl rfl
    rfl rfl (Or.inr (by decide)) rfl (by decide)

/-! ## Claim C2 -/

/-- C2: in acquisition mode (valid acquisition arguments), the
normalization stage runs if and only if the download reported success or
the download directory is non-empty; it is skipped — straight to the
terminal path — exactly when the download failed and the directory is
empty (main.py line 281). -/
theorem C2_normalization_iff_success_or_nonempty (args : Args) (env : MainEnv)
    (hpd : truthy args.process_dir = false)
    (hpl : truthy args.playlist_url = true)
    (ho : truthy args.output_dir = true) (hu : truthy args.user = true)
    (hpw : truthy args.password = true) (hpf : truthy args.pref_format = true) :
    (main_run args env).pmInvoked = true ↔
      (dlSucceeded env.dl = true ∨ env.downloadDirListing ≠ []) := by
  obtain ⟨⟨b, tr⟩, hok⟩ := download_music_never_errors env.dl
  have hb : dlSucceeded env.dl = b := by simp [dlSucceeded, hok]
  simp only [main_run, hpd, hpl, ho, hu, hpw, hpf, hok, Bool.false_eq_true, if_false,
    Bool.and_self, Bool.not_true, if_true]
  rw [hb]
  by_cases hc : b = true ∨ env.downloadDirListing ≠ []
  · rw [if_pos hc]; simpa using hc
  · rw [if_neg hc]; simpa using hc

theorem C2_normalization_iff_success_or_nonempty_witness :
    (main_run argsAcq envDlFailedNonEmpty).pmInvoked = true ↔
      (dlSucceeded envDlFailedNonEmpty.dl = true ∨
        envDlFailedNonEmpty.downloadDirListing ≠ []) :=
  C2_normalization_iff_success_or_nonempty argsAcq envDlFailedNonEmpty rfl rfl rfl rfl
    rfl rfl

/-! ## Claim C8 -/

/-- C8 counterexample: with the acquisition executable absent the program
does report the problem before any launch, but it terminates with exit
status 0, not the non-zero status the claim requires. -/
theorem C8_counterexample :
    envNoSldl.dl.sldlExists = false ∧
    (main_run argsAcq envNoSldl).exitCode = 0 := by
  decide

/-- C8 amended: an invalid argument combination is reported before any
stage runs and exits with status 2 (the `parser.error` path); a missing
acquisition executable is likewise detected before any process launch —
no download process is launched and the download reports failure — but
the program does not terminate with a non-zero status: it continues and
exits 0 (and may even run normalization if the download directory is
non-empty). -/
theorem C8_preflight_behaviour (args : Args) (env : MainEnv) :
    (argsValid args = false → main_run args env = usageError) ∧
    (truthy args.process_dir = false → truthy args.playlist_url = true →
     truthy args.output_dir = true → truthy args.user = true →
     truthy args.password = true → truthy args.pref_format = true →
     env.dl.sldlExists = false →
       (main_run args env).dlProcessLaunched = false ∧
       (main_run args env).download_success = false ∧
       (main_run args env).exitCode = 0) := by
  constructor
  · intro hv
    by_cases hpd : truthy args.process_dir = true
    · have hflags : (truthy args.playlist_url || truthy args.user
          || truthy args.password || truthy args.pref_format) = true := by
        cases h : (truthy args.playlist_url || truthy args.user
            || truthy args.password || truthy args.pref_format) with
        | true => rfl
        | false =>
            exfalso
            have hvalid : argsValid args = true := by
              unfold argsValid
              rw [hpd, h]
              simp
            rw [hvalid] at hv
            exact absurd hv (by decide)
      simp [main_run, hpd, hflags]
    · have hpd' : truthy args.process_dir = false := by
        cases h : truthy args.process_dir
        · rfl
        · exact absurd h hpd
      by_cases hpl : truthy args.playlist_url = true
      · have hrest : (truthy args.output_dir && truthy args.user
            && truthy args.password && truthy args.pref_format) = false := by
          cases h : (truthy args.output_dir && truthy args.user
              && truthy args.password && truthy args.pref_format) with
          | false => rfl
          | true =>
              exfalso
              obtain ⟨h3, hpf⟩ := Bool.and_eq_true_iff.mp h
              obtain ⟨h4, hpw⟩ := Bool.and_eq_true_iff.mp h3
              obtain ⟨ho, hu⟩ := Bool.and_eq_true_iff.mp h4
              have hvalid : argsValid args = true := by
                simp [argsValid, hpd', hpl, ho, hu, hpw, hpf]
              rw [hvalid] at hv
              exact absurd hv (by decide)
        simp [main_run, hpd', hpl, hrest]
      · have hpl' : truthy args.playlist_url = false := by
          cases h : truthy args.playlist_url
          · rfl
          · exact absurd h hpl
        simp [main_run, hpd', hpl']
  · intro hpd hpl ho hu hpw hpf hsldl
    have hdl : download_music env.dl =
        { processLaunched := false, result := .ok (false, []) } := by
      simp [download_music, hsldl]
    refine ⟨?_, ?_, ?_⟩ <;>
      simp [main_run, hpd, hpl, ho, hu, hpw, hpf, hdl] <;>
      split <;> rfl

theorem C8_preflight_behaviour_witness :
    main_run argsBad envNoSldl = usageError ∧
    ((main_run argsAcq envNoSldl).dlProcessLaunched = false ∧
     (main_run argsAcq envNoSldl).download_success = false ∧
     (main_run argsAcq envNoSldl).exitCode = 0) :=
  ⟨(C8_preflight_behaviour argsBad envNoSldl).1 (by decide),
   (C8_preflight_behaviour argsAcq envNoSldl).2 rfl rfl rfl rfl rfl rfl rfl⟩

/-! ## Claim C10 -/

/-- C10: every invocation whose argument combination passes validation
terminates with process exit status 0, whatever the download result, the
per-file normalization results, the beets result, and the rmtree result
— no stage failure reaches the process exit status. -/
theorem C10_valid_args_exit_zero (args : Args) (env : MainEnv)
    (hv : argsValid args = true) :
    (main_run args env).exitCode = 0 := by
  obtain ⟨⟨b, tr⟩, hok⟩ := download_music_never_errors env.dl
  rcases Bool.or_eq_true_iff.mp hv with h | h
  · obtain ⟨hpd, hno⟩ := Bool.and_eq_true_iff.mp h
    have hflags : (truthy args.playlist_url || truthy args.user
        || truthy args.password || truthy args.pref_format) = false := by
      simpa using hno
    simp [main_run, hpd, hflags]
  · have hpd : truthy args.process_dir = false := by
      rcases Bool.and_eq_true_iff.mp h with ⟨h', _⟩
      rcases Bool.and_eq_true_iff.mp h' with ⟨h'', _⟩
      rcases Bool.and_eq_true_iff.mp h'' with ⟨h3, _⟩
      rcases Bool.and_eq_true_iff.mp h3 with ⟨h4, _⟩
      rcases Bool.and_eq_true_iff.mp h4 with ⟨h5, _⟩
      simpa using h5
    have hpl : truthy args.playlist_url = true := by
      rcases Bool.and_eq_true_iff.mp h with ⟨h', _⟩
      rcases Bool.and_eq_true_iff.mp h' with ⟨h'', _⟩
      rcases Bool.and_eq_true_iff.mp h'' with ⟨h3, _⟩
      rcases Bool.and_eq_true_iff.mp h3 with ⟨h4, _⟩
      exact (Bool.and_eq_true_iff.mp h4).2
    have ho : truthy args.output_dir = true := by
      rcases Bool.and_eq_true_iff.mp h with ⟨h', _⟩
      rcases Bool.and_eq_true_iff.mp h' with ⟨h'', _⟩
      rcases Bool.and_eq_true_iff.mp h'' with ⟨h3, _⟩
      exact (Bool.and_eq_true_iff.mp h3).2
    have hu : truthy args.user = true := by
      rcases Bool.and_eq_true_iff.mp h with ⟨h', _⟩
      rcases Bool.and_eq_true_iff.mp h' with ⟨h'', _⟩
      exact (Bool.and_eq_true_iff.mp h'').2
    have hpw : truthy args.password = true := by
      rcases Bool.and_eq_true_iff.mp h with ⟨h', _⟩
      exact (Bool.and_eq_true_iff.mp h').2
    have hpf : truthy args.pref_format = true := (Bool.and_eq_true_iff.mp h).2
    simp only [main_run, hpd, hpl, ho, hu, hpw, hpf, hok, Bool.false_eq_true, if_false,
      Bool.and_self, Bool.not_true, if_true]
    by_cases hc : b = true ∨ env.downloadDirListing ≠ []
    · rw [if_pos hc]
    · rw [if_neg hc]

theorem C10_valid_args_exit_zero_witness :
    (main_run argsAcq envDlFailedEmpty).exitCode = 0 :=
  C10_valid_args_exit_zero argsAcq envDlFailedEmpty (by decide)
